import Mathlib

/-!
Verification development for the `dave` simulation-automation pipeline
(`src/automation`).  The Python modules are shallowly embedded:

* `datetime.timedelta` / `datetime.datetime` values are whole numbers of
  microseconds (`ℕ`), matching CPython's internal representation;
  `timedelta / int` rounds to the nearest microsecond, ties to even.
* decimal literals of the source are embedded as exact rationals (`ℚ`);
  Python's `int(x)` is truncation toward zero.  Where a claim is sensitive
  to CPython's binary64 arithmetic, `fl` rounds a rational to the bit-exact
  value of the corresponding double.
* file emission is modelled as the structured record of everything the
  source writes; the file system, where a claim needs it, is a map from
  path to contents.
-/

namespace Dave

/-! ### Time utilities (microsecond-based, after CPython `datetime`) -/

/-- Microseconds in one second. -/
def usPerSecond : ℕ := 1000000

/-- Microseconds in one hour. -/
def usPerHour : ℕ := 3600000000

/-- Microseconds in one minute. -/
def usPerMinute : ℕ := 60000000

/-- Microseconds in one day. -/
def dayUs : ℕ := 86400000000

/-- `datetime.hour` for an instant `t` microseconds after day 0 midnight. -/
def hourOfDayUs (t : ℕ) : ℕ := t / usPerHour % 24

/-- `datetime.minute` for an instant `t` microseconds after day 0 midnight. -/
def minuteOfHourUs (t : ℕ) : ℕ := t / usPerMinute % 60

/-- CPython `timedelta // int` with rounding to the nearest representable
microsecond, ties to even: the semantics of `timedelta / int`. -/
def tdDivRound (a n : ℕ) : ℕ :=
  let q := a / n
  let r := a % n
  if 2 * r < n then q
  else if n < 2 * r then q + 1
  else if q % 2 = 0 then q else q + 1

/-- Python `int(x)`: truncation toward zero. -/
def pyTrunc (x : ℚ) : ℤ := if 0 ≤ x then ⌊x⌋ else -⌊-x⌋

/-- Round a rational to the nearest integer, ties to even (the rounding used
when printing a value to a fixed number of decimals). -/
def rhe (x : ℚ) : ℤ :=
  if x - ⌊x⌋ < 1 / 2 then ⌊x⌋
  else if 1 / 2 < x - ⌊x⌋ then ⌊x⌋ + 1
  else if ⌊x⌋ % 2 = 0 then ⌊x⌋ else ⌊x⌋ + 1

/-- The two-decimal rendering `{x:0.2f}` of a value, as a count of hundredths,
applied to the exact rational value of the printed CPython double.  `printf`
rounds that exact binary value to the nearest hundredth; a double is never
exactly halfway between two hundredths (half-hundredths are not dyadic), so
the nearest hundredth is unambiguous and `rhe`'s tie branch is unreachable on
such inputs. -/
def format2 (x : ℚ) : ℤ := rhe (x * 100)

/-- Round a rational to the nearest IEEE-754 binary64 value (round to
nearest, ties to even): the bit-exact value of a CPython float.  Only the
normal range matters here, which covers every value in this development. -/
def fl (x : ℚ) : ℚ :=
  if x = 0 then 0
  else (rhe (x / 2 ^ (Int.log 2 |x| - 52)) : ℚ) * 2 ^ (Int.log 2 |x| - 52)

/-! ### Congestion table and intensity factor
(`class_simulation.py`, `Simulation.dict_qsv_x` and `__prepare_sumo`) -/

/-- `Simulation.dict_qsv_x`: congestion-level code ↦ utilization range. -/
def dict_qsv_x : List (Char × ℚ × ℚ) :=
  [('a', 0, 0.30), ('b', 0.30, 0.55), ('c', 0.55, 0.75), ('d', 0.75, 0.90),
   ('e', 0.90, 1.00), ('f', 1.00, 1.15), ('g', 1.00, 1.00), ('h', 0.10, 0.10),
   ('i', 0.20, 0.20), ('j', 0.30, 0.30), ('k', 0.40, 0.40), ('l', 0.50, 0.50),
   ('m', 0.60, 0.60), ('n', 0.70, 0.70), ('o', 0.80, 0.80), ('p', 0.85, 0.85),
   ('q', 0.90, 0.90), ('r', 0.95, 0.95), ('s', 1.00, 1.00), ('t', 1.05, 1.05),
   ('u', 1.10, 1.10), ('v', 1.20, 1.20), ('w', 1.30, 1.30), ('x', 1.40, 1.40),
   ('y', 1.50, 1.50), ('z', 1.60, 1.60), ('1', 1.70, 1.70), ('2', 1.80, 1.80),
   ('3', 1.90, 1.90)]

/-- `qsv in self.dict_qsv_x.keys()`. -/
def isValidCode (c : Char) : Bool := (List.lookup c dict_qsv_x).isSome

/-- `sum(l) / len(l)`. -/
def listMean (l : List ℚ) : ℚ := l.sum / l.length

/-- `traffic_factor = sum(qsv_limits) / len(qsv_limits)` for the looked-up
bounds pair (0 for an unknown code, which the source rejects first), over the
exact decimal values of the table. -/
def trafficFactorOf (c : Char) : ℚ :=
  match List.lookup c dict_qsv_x with
  | some b => listMean [b.1, b.2]
  | none => 0

/-- The same `traffic_factor = sum(qsv_limits) / len(qsv_limits)` as the
program's doubles compute it: the table literals are doubles (`fl` of the
decimals), `sum` folds `0 + lo + hi` left-to-right with a rounding per
addition, and the division by `len = 2` rounds once more.  This is the value
actually passed to the demand-matrix emission. -/
def trafficFactorFloat (c : Char) : ℚ :=
  match List.lookup c dict_qsv_x with
  | some b => fl (fl (fl (0 + fl b.1) + fl b.2) / 2)
  | none => 0

/-! ### Time segments (`Simulation.__prepare_sumo`, lines 333–357) -/

/-- One derived time slice of a scenario. -/
structure TimeSegment where
  idx : ℕ
  qsv : Char
  factor : ℚ
  startUs : ℕ
  durUs : ℕ
deriving DecidableEq

/-- Segment `i` of a scenario with total duration `D` µs and `n` codes:
`duration = self._duration / len(self._qsv_sequence)` and
`start_time = base + duration * idx` (the base is day 0 midnight, so the
start is stored as the offset from it). -/
def mkSegment (D n i : ℕ) (c : Char) : TimeSegment :=
  ⟨i, c, trafficFactorOf c, tdDivRound D n * i, tdDivRound D n⟩

/-- Segments for the codes `l`, numbering them from `i`, with `n` the length
of the full sequence. -/
def segmentsFrom (D n i : ℕ) : List Char → List TimeSegment
  | [] => []
  | c :: cs => mkSegment D n i c :: segmentsFrom D n (i + 1) cs

/-- All segments of a scenario: total duration `D` µs, code sequence `seq`. -/
def segmentsOf (D : ℕ) (seq : List Char) : List TimeSegment :=
  segmentsFrom D seq.length 0 seq

/-- The od-matrix loop of `__prepare_sumo` for one vehicle class: each code is
validated, then its demand file is written, then the next code is processed.
`.ok segs` means every code was valid and one file per segment was written;
`.error (written, bad)` means code `bad` was rejected after the files for the
segments in `written` had already been emitted. -/
def prepareOdLoop (D n : ℕ) : ℕ → List Char → Except (List TimeSegment × Char) (List TimeSegment)
  | _, [] => .ok []
  | i, c :: cs =>
    if isValidCode c then
      match prepareOdLoop D n (i + 1) cs with
      | .ok segs => .ok (mkSegment D n i c :: segs)
      | .error (written, bad) => .error (mkSegment D n i c :: written, bad)
    else .error ([], c)

/-- Demand-file generation for one vehicle class of a scenario. -/
def prepareOdFiles (D : ℕ) (seq : List Char) :
    Except (List TimeSegment × Char) (List TimeSegment) :=
  prepareOdLoop D seq.length 0 seq

/-- A segment covers instant `t` (µs from midnight) iff `t` falls inside the
half-open window `[start, start + duration)`. -/
def segCovers (s : TimeSegment) (t : ℕ) : Prop :=
  s.startUs ≤ t ∧ t < s.startUs + s.durUs

instance (s : TimeSegment) (t : ℕ) : Decidable (segCovers s t) := by
  unfold segCovers; infer_instance

instance {ε α : Type} [DecidableEq ε] [DecidableEq α] : DecidableEq (Except ε α) :=
  fun x y =>
    match x, y with
    | .ok a, .ok b =>
      if h : a = b then isTrue (h ▸ rfl) else isFalse (fun he => h (Except.ok.inj he))
    | .error a, .error b =>
      if h : a = b then isTrue (h ▸ rfl) else isFalse (fun he => h (Except.error.inj he))
    | .ok _, .error _ => isFalse (fun he => Except.noConfusion he)
    | .error _, .ok _ => isFalse (fun he => Except.noConfusion he)

/-! ### Demand-matrix emission (`createODMatrixFile.py`) -/

/-- `od_matrix_duration = 3600`: the canonical period (seconds) the source
demand tables are scaled for. -/
def od_matrix_duration : ℕ := 3600

/-- `time_factor = duration.total_seconds() / od_matrix_duration` for a segment
duration of `dUs` microseconds. -/
def timeFactorOf (dUs : ℕ) : ℚ := ((dUs : ℚ) / usPerSecond) / od_matrix_duration

/-- `int(row['num'] * time_factor)`: the per-row emitted count. -/
def emittedCount (num : ℤ) (dUs : ℕ) : ℤ := pyTrunc ((num : ℚ) * timeFactorOf dUs)

/-- Everything `create_od_matrix_file` writes into one `.od` artifact: the
vehicle-type line, the `HH.MM`-formatted from/to time-window line, the factor
line (two decimals, recorded as hundredths), and one scaled row per source
row. -/
structure OdFile where
  vtype : ℕ
  fromHH : ℕ
  fromMM : ℕ
  toHH : ℕ
  toMM : ℕ
  factorHundredths : ℤ
  rows : List (ℤ × ℤ × ℤ)
deriving DecidableEq

/-- `create_od_matrix_file`: `odMatrix` is the parsed source table as
`(from, to, num)` rows, `startUs` the start instant in µs from day 0
midnight, `dUs` the duration in µs.  `end_time = (start_time + duration),
.time()` keeps only the time of day, which the `HH.MM` formatting reads. -/
def create_od_matrix_file (odMatrix : List (ℤ × ℤ × ℤ)) (traffic_factor : ℚ)
    (vtype : ℕ) (startUs dUs : ℕ) : OdFile :=
  { vtype := vtype
    fromHH := hourOfDayUs startUs
    fromMM := minuteOfHourUs startUs
    toHH := hourOfDayUs (startUs + dUs)
    toMM := minuteOfHourUs (startUs + dUs)
    factorHundredths := format2 traffic_factor
    rows := odMatrix.map fun r => (r.1, r.2.1, emittedCount r.2.2 dUs) }

/-- The `.od` artifact `__prepare_sumo` emits for one segment of one class.
The `traffic_factor` argument the source passes is the float the loop
computed for the segment's code — `trafficFactorFloat` — not its exact
decimal idealization. -/
def segmentOdFile (odMatrix : List (ℤ × ℤ × ℤ)) (vtype : ℕ) (s : TimeSegment) : OdFile :=
  create_od_matrix_file odMatrix (trafficFactorFloat s.qsv) vtype s.startUs s.durUs

/-! ### Coordinate transform (`createOmnetppFile.py`, `convert_lon_lat_2_xy_omnet`) -/

/-- What `sumolib.net.readNet` exposes of a loaded network: the converted
bounding box, the location offset, and the geodetic-to-raw-UTM projection. -/
structure SumoNet where
  xMin : ℚ
  yMin : ℚ
  xMax : ℚ
  yMax : ℚ
  offsetX : ℚ
  offsetY : ℚ
  convLonLat : ℚ → ℚ → ℚ × ℚ

/-- `convert_lon_lat_2_xy_omnet`: project `(lon, lat)` to raw coordinates
`(xs, ys)`, then `x = xs - xMin + offsetX` and `y = -(ys - yMax + offsetY)`. -/
def convert_lon_lat_2_xy_omnet (net : SumoNet) (lon lat : ℚ) : ℚ × ℚ :=
  let p := net.convLonLat lon lat
  (p.1 - net.xMin + net.offsetX, -(p.2 - net.yMax + net.offsetY))

/-- The horizontal shift `v - bound + off` shared by both components (the
vertical one negated, with the box maximum in place of the minimum). -/
def hshift (v bound off : ℚ) : ℚ := v - bound + off

/-! ### External tool invocation (`Simulation.__prepare_sumo`, lines 371–398)

`os.system(cmd_od2trips)` and `os.system(cmd_duarouter)` return the tool's
exit status, which the source discards: the call sites are functions of the
status that never produce an error and always continue.  The trip-file path
is appended to the route list before the call, unconditionally. -/

/-- The `od2trips` call site: list append of the trip file followed by
`os.system`, whose status is dropped. -/
def od2tripsCall (exitStatus : ℤ) (tripFiles : List String) (tripFile : String) :
    List String × Except String Unit :=
  (tripFiles ++ [tripFile], (fun _ => Except.ok ()) exitStatus)

/-- The `duarouter` call site: `os.system` with the status dropped. -/
def duarouterCall (exitStatus : ℤ) : Except String Unit :=
  (fun _ => Except.ok ()) exitStatus

/-! ### Scratch cleanup (`Simulation.clean`, lines 250–272)

Paths are lists of components relative to the simulation directory
(`self._path_to_simulation`); the results folder (`path_to_results`) sits
outside it, starting with a `..` component in both layouts of `main.py`. -/

/-- `self._path_to_vtypes`: the scenario-scoped vehicle-type copy. -/
def vtypesNewPath (id : String) : List String :=
  ["sumo", "additional", id ++ "_vtypes.add.xml"]

/-- `self._path_to_sumo_config_file`. -/
def sumoConfigPath (id : String) : List String :=
  ["sumo", "config", id ++ ".sumocfg"]

/-- `self._path_to_omnetpp_file_long`. -/
def omnetppLongPath (id : String) : List String :=
  [id ++ "_omnetpp.ini"]

/-- `self._path_to_services_file`. -/
def servicesPath (id : String) : List String :=
  [id ++ "_services.xml"]

/-- `self._path_to_routes`: the generated route directory of the scenario. -/
def routesDir (id : String) : List String :=
  ["sumo", "routes", id]

/-- `self._path_to_additional_file`. -/
def additionalFilePath (id : String) : List String :=
  ["sumo", "additional", id ++ "_additional.add.xml"]

/-- `self._path_to_vtypes_ref`: the shared reference template. -/
def vtypesRefPath : List String := ["sumo", "additional", "vtypes.add.xml"]

/-- The archived configuration copy `sim_config.csv` under the results tree;
`resultsTail` is the remainder of the relative results root after its leading
`..` component. -/
def archivedConfigPath (resultsTail : List String) (id : String) : List String :=
  ".." :: (resultsTail ++ [id, "config", "sim_config.csv"])

/-- `objects_2_delete`: the six scenario-scoped paths `clean` targets. -/
def objects2delete (id : String) : List (List String) :=
  [vtypesNewPath id, sumoConfigPath id, omnetppLongPath id, servicesPath id,
   routesDir id, additionalFilePath id]

/-- A path is removed by `clean` iff it is one of the six targets or lies
inside the removed route directory (`shutil.rmtree` deletes the subtree). -/
def removedByClean (id : String) (p : List String) : Prop :=
  p ∈ objects2delete id ∨ routesDir id <+: p

instance (id : String) (p : List String) : Decidable (removedByClean id p) := by
  unfold removedByClean; exact inferInstance

/-- `Simulation.clean` on a file-system snapshot given as the list of the
paths that exist: the surviving paths. -/
def clean (id : String) (fs : List (List String)) : List (List String) :=
  fs.filter fun p => decide (¬ removedByClean id p)

/-! ### Vehicle-type customization (`customize_vtype_file`, lines 18–44)

`str.replace` of CPython replaces every non-overlapping occurrence of the
pattern, scanning left to right; contents are lists of characters. -/

/-- Python `content.replace(pat, rep)` for a non-empty pattern. -/
def replaceAll (pat rep : List Char) (s : List Char) : List Char :=
  match s with
  | [] => []
  | c :: rest =>
    if h : pat ≠ [] ∧ pat.isPrefixOf (c :: rest) then
      rep ++ replaceAll pat rep ((c :: rest).drop pat.length)
    else
      c :: replaceAll pat rep rest
termination_by s.length
decreasing_by
  · simp only [List.length_drop, List.length_cons]
    rcases h with ⟨hne, -⟩
    cases pat with
    | nil => exact absurd rfl hne
    | cons p ps => simp only [List.length_cons]; omega
  · simp only [List.length_cons]; omega

/-- `old_string = 'tau="1.0"'`: the marker replaced in the template. -/
def tauMarker : List Char := "tau=\"1.0\"".toList

/-- `new_string = 'tau="{0}".format(tau)'` with `tauStr` the rendering of the
configured tau value. -/
def tauReplacement (tauStr : List Char) : List Char :=
  "tau=\"".toList ++ tauStr ++ "\"".toList

/-- The content transformation `customize_vtype_file` applies. -/
def customize_vtype_content (content : List Char) (tauStr : List Char) : List Char :=
  replaceAll tauMarker (tauReplacement tauStr) content

/-- `customize_vtype_file` on a file system (path ↦ contents): it reads the
template at `ref` and writes the transformed content at `new`, touching no
other path. -/
def customize_vtype_file (fs : String → Option (List Char)) (ref new : String)
    (tauStr : List Char) : String → Option (List Char) :=
  fun p => if p = new then (fs ref).map (fun c => customize_vtype_content c tauStr) else fs p

/-- A one-file snapshot with a realistic template: it contains the `tau`
marker, as every shipped `vtypes.add.xml` does. -/
def templateFsMarker : String → Option (List Char) :=
  fun p => if p = "vtypes.add.xml" then some ("<vType tau=\"1.0\"/>".toList) else none

/-- A one-file snapshot with a template that lacks the `tau` marker. -/
def templateFsPlain : String → Option (List Char) :=
  fun p => if p = "vtypes.add.xml" then some ("<vType/>".toList) else none

/-- The bundled conclusion of the segment-generation claim, for every
scenario with an all-valid sequence (no divisibility assumption): generation
succeeds with one segment per code; every segment has the common rounded
duration `round(D/n)` and start `round(D/n) * index`; consecutive segments
are contiguous; an instant is covered by some segment exactly when it lies
in `[0, n * round(D/n))`; distinct segments never overlap; and
`n * round(D/n)` equals `D` precisely when `n` divides `D`, so the segments
exactly partition `[0, D)` exactly in the dividing case. -/
def SegmentGenerationSpec (D : ℕ) (seq : List Char) : Prop :=
  prepareOdFiles D seq = .ok (segmentsOf D seq) ∧
  (segmentsOf D seq).length = seq.length ∧
  (∀ k (hk : k < (segmentsOf D seq).length),
    ((segmentsOf D seq).get ⟨k, hk⟩).durUs = tdDivRound D seq.length ∧
    ((segmentsOf D seq).get ⟨k, hk⟩).startUs = tdDivRound D seq.length * k) ∧
  (∀ k (hk : k < (segmentsOf D seq).length) (hk1 : k + 1 < (segmentsOf D seq).length),
    ((segmentsOf D seq).get ⟨k + 1, hk1⟩).startUs
      = ((segmentsOf D seq).get ⟨k, hk⟩).startUs + ((segmentsOf D seq).get ⟨k, hk⟩).durUs) ∧
  (∀ t, (∃ s ∈ segmentsOf D seq, segCovers s t) ↔ t < seq.length * tdDivRound D seq.length) ∧
  (∀ s₁ ∈ segmentsOf D seq, ∀ s₂ ∈ segmentsOf D seq, s₁ ≠ s₂ →
    ∀ t, segCovers s₁ t → ¬ segCovers s₂ t) ∧
  (seq.length ∣ D → seq.length * tdDivRound D seq.length = D) ∧
  (¬ seq.length ∣ D → seq.length * tdDivRound D seq.length ≠ D)

end Dave

namespace Dave

/-! ### Helper lemmas -/

theorem segmentsFrom_length (D n : ℕ) (l : List Char) :
    ∀ i, (segmentsFrom D n i l).length = l.length := by
  induction l with
  | nil => intro i; rfl
  | cons c cs ih => intro i; simp [segmentsFrom, ih]

theorem segmentsFrom_get (D n : ℕ) (l : List Char) :
    ∀ i k (hk : k < (segmentsFrom D n i l).length)
      (hk' : k < l.length),
      (segmentsFrom D n i l).get ⟨k, hk⟩ = mkSegment D n (i + k) (l.get ⟨k, hk'⟩) := by
  induction l with
  | nil => intro i k hk hk'; exact absurd hk' (by simp)
  | cons c cs ih =>
    intro i k hk hk'
    cases k with
    | zero => simp [segmentsFrom]
    | succ k =>
      simp only [segmentsFrom, List.get_cons_succ]
      rw [ih (i + 1) k _ (by simpa using hk')]
      congr 1
      omega

theorem prepareOdLoop_ok (D n : ℕ) (l : List Char) :
    ∀ i, (∀ c ∈ l, isValidCode c) →
      prepareOdLoop D n i l = .ok (segmentsFrom D n i l) := by
  induction l with
  | nil => intro i _; rfl
  | cons c cs ih =>
    intro i hv
    have hc : isValidCode c := hv c (by simp)
    have hrec := ih (i + 1) (fun d hd => hv d (by simp [hd]))
    simp [prepareOdLoop, hc, hrec, segmentsFrom]

theorem prepareOdLoop_error (D n : ℕ) (l : List Char) :
    ∀ i j (hj : j < l.length),
      (∀ k (hk : k < j), isValidCode (l.get ⟨k, hk.trans hj⟩)) →
      isValidCode (l.get ⟨j, hj⟩) = false →
      prepareOdLoop D n i l =
        .error (segmentsFrom D n i (l.take j), l.get ⟨j, hj⟩) := by
  induction l with
  | nil => intro i j hj; exact absurd hj (by simp)
  | cons c cs ih =>
    intro i j hj hpre hbad
    cases j with
    | zero =>
      simp only [List.get] at hbad
      simp [prepareOdLoop, hbad, segmentsFrom]
    | succ j =>
      have hc : isValidCode c := by
        have := hpre 0 (Nat.succ_pos j)
        simpa using this
      have hj' : j < cs.length := by simpa using hj
      have hrec := ih (i + 1) j hj'
        (fun k hk => by
          have := hpre (k + 1) (by omega)
          simpa using this)
        (by simpa using hbad)
      simp [prepareOdLoop, hc, hrec, List.take_succ_cons, segmentsFrom]

theorem tdDivRound_of_dvd (D n : ℕ) (hn : 0 < n) (h : n ∣ D) :
    tdDivRound D n = D / n := by
  obtain ⟨k, rfl⟩ := h
  simp [tdDivRound, Nat.mul_mod_right, hn]

/-! ### C1: the generated segments and the partition of `[0, D)` -/

/-- C1 (amended): for every scenario with total duration `D` microseconds and
an all-valid congestion sequence of positive length `n`, generation succeeds
and yields exactly `n` segments, contiguous, equal-length (each of duration
`round(D/n)`, Python's microsecond-rounded `timedelta` division) and
non-overlapping, segment `i` starting at `baseStartTime + round(D/n) * i`;
together they cover exactly `[0, n * round(D/n))`, which equals `[0, D)`
precisely when `n` divides `D` in microseconds. -/
theorem c1_segments_partition (D : ℕ) (seq : List Char)
    (hn : 0 < seq.length) (hvalid : ∀ c ∈ seq, isValidCode c) :
    SegmentGenerationSpec D seq := by
  have hlen : (segmentsOf D seq).length = seq.length :=
    segmentsFrom_length D seq.length seq 0
  have hget : ∀ k (hk : k < (segmentsOf D seq).length) (hk2 : k < seq.length),
      (segmentsOf D seq).get ⟨k, hk⟩ = mkSegment D seq.length k (seq.get ⟨k, hk2⟩) := by
    intro k hk hk2
    have := segmentsFrom_get D seq.length seq 0 k hk hk2
    simpa using this
  refine ⟨prepareOdLoop_ok D seq.length seq 0 hvalid, hlen, ?_, ?_, ?_, ?_, ?_, ?_⟩
  · intro k hk
    have hk2 : k < seq.length := by omega
    rw [hget k hk hk2]
    exact ⟨rfl, rfl⟩
  · intro k hk hk1
    have hk2 : k < seq.length := by omega
    have hk12 : k + 1 < seq.length := by omega
    rw [hget k hk hk2, hget (k + 1) hk1 hk12]
    simp only [mkSegment]
    ring
  · intro t
    constructor
    · rintro ⟨s, hs, hcov⟩
      obtain ⟨⟨k, hk⟩, hg⟩ := List.mem_iff_get.mp hs
      have hk2 : k < seq.length := by omega
      have e : s = mkSegment D seq.length k (seq.get ⟨k, hk2⟩) :=
        hg.symm.trans (hget k hk hk2)
      rw [e] at hcov
      simp only [segCovers, mkSegment] at hcov
      have hmul : tdDivRound D seq.length * (k + 1) ≤ tdDivRound D seq.length * seq.length :=
        Nat.mul_le_mul (Nat.le_refl _) hk2
      have hdist : tdDivRound D seq.length * (k + 1)
          = tdDivRound D seq.length * k + tdDivRound D seq.length := by ring
      have hcomm : tdDivRound D seq.length * seq.length
          = seq.length * tdDivRound D seq.length := Nat.mul_comm _ _
      omega
    · intro ht
      rcases Nat.eq_zero_or_pos (tdDivRound D seq.length) with hdz | hdpos
      · rw [hdz, Nat.mul_zero] at ht
        omega
      · have hk2 : t / tdDivRound D seq.length < seq.length := by
          rw [Nat.div_lt_iff_lt_mul hdpos]
          exact ht
        refine ⟨(segmentsOf D seq).get ⟨t / tdDivRound D seq.length, by omega⟩,
          List.get_mem _ _ _, ?_⟩
        rw [hget _ _ hk2]
        have h1 := Nat.div_add_mod t (tdDivRound D seq.length)
        have h2 := Nat.mod_lt t hdpos
        constructor
        · simp only [mkSegment]
          omega
        · simp only [mkSegment]
          omega
  · intro s₁ hs₁ s₂ hs₂ hne t hc₁ hc₂
    obtain ⟨⟨k₁, hk₁⟩, hg₁⟩ := List.mem_iff_get.mp hs₁
    obtain ⟨⟨k₂, hk₂⟩, hg₂⟩ := List.mem_iff_get.mp hs₂
    have hk₁l : k₁ < seq.length := by omega
    have hk₂l : k₂ < seq.length := by omega
    have e₁ : s₁ = mkSegment D seq.length k₁ (seq.get ⟨k₁, hk₁l⟩) :=
      hg₁.symm.trans (hget k₁ hk₁ hk₁l)
    have e₂ : s₂ = mkSegment D seq.length k₂ (seq.get ⟨k₂, hk₂l⟩) :=
      hg₂.symm.trans (hget k₂ hk₂ hk₂l)
    have hkne : k₁ ≠ k₂ := by
      intro h
      apply hne
      rw [← hg₁, ← hg₂]
      subst h
      rfl
    rw [e₁] at hc₁
    rw [e₂] at hc₂
    simp only [segCovers, mkSegment] at hc₁ hc₂
    rcases Nat.lt_or_ge k₁ k₂ with hlt | hge
    · have hmul : tdDivRound D seq.length * (k₁ + 1) ≤ tdDivRound D seq.length * k₂ :=
        Nat.mul_le_mul (Nat.le_refl _) hlt
      have hdist : tdDivRound D seq.length * (k₁ + 1)
          = tdDivRound D seq.length * k₁ + tdDivRound D seq.length := by ring
      omega
    · have hlt : k₂ < k₁ := by omega
      have hmul : tdDivRound D seq.length * (k₂ + 1) ≤ tdDivRound D seq.length * k₁ :=
        Nat.mul_le_mul (Nat.le_refl _) hlt
      have hdist : tdDivRound D seq.length * (k₂ + 1)
          = tdDivRound D seq.length * k₂ + tdDivRound D seq.length := by ring
      omega
  · intro hdvd
    rw [tdDivRound_of_dvd D seq.length hn hdvd]
    exact Nat.mul_div_cancel' hdvd
  · intro hnd heq
    exact hnd ⟨tdDivRound D seq.length, heq.symm⟩

/-- C1 witness: the amended theorem at the concrete scenario of the spec's
end-to-end example (duration 7200 s, sequence "ab"). -/
theorem c1_segments_partition_witness :
    0 < (['a', 'b'] : List Char).length ∧
    SegmentGenerationSpec 7200000000 ['a', 'b'] :=
  ⟨by decide, c1_segments_partition 7200000000 ['a', 'b'] (by decide) (by decide)⟩

/-- C1 counterexample: for duration 100 s (100 000 000 µs) and the
three-code sequence "abc" the generation succeeds, `3 * round(D/3)` is not
`D`, and the instant 99 999 999 µs — inside `[0, D)` — is covered by no
segment: the segments do not exactly partition `[0, D)` as claimed. -/
theorem c1_counterexample :
    prepareOdFiles 100000000 ['a', 'b', 'c'] =
      .ok (segmentsOf 100000000 ['a', 'b', 'c']) ∧
    99999999 < 100000000 ∧
    (∀ s ∈ segmentsOf 100000000 ['a', 'b', 'c'],
      ¬ (s.startUs ≤ 99999999 ∧ 99999999 < s.startUs + s.durUs)) ∧
    3 * tdDivRound 100000000 3 ≠ 100000000 := by
  refine ⟨prepareOdLoop_ok 100000000 3 ['a', 'b', 'c'] 0 (by decide), by norm_num, ?_, by decide⟩
  decide

/-! ### C2: the intensity factor is the mean of the table bounds -/

/-- C2: for every congestion code that is a key of `dict_qsv_x`, the computed
traffic-intensity factor is the arithmetic mean of the code's two bounds. -/
theorem c2_traffic_factor (ch : Char) (lo hi : ℚ)
    (h : List.lookup ch dict_qsv_x = some (lo, hi)) :
    trafficFactorOf ch = (lo + hi) / 2 := by
  simp only [trafficFactorOf, h, listMean, List.sum_cons, List.sum_nil,
    List.length_cons, List.length_nil]
  norm_num

/-- C2 witness: code `c` has bounds `[0.55, 0.75]` and factor
`(0.55 + 0.75) / 2 = 0.65`. -/
theorem c2_traffic_factor_witness :
    List.lookup 'c' dict_qsv_x = some (0.55, 0.75) ∧
    trafficFactorOf 'c' = (0.55 + 0.75) / 2 ∧ ((0.55 + 0.75) / 2 : ℚ) = 0.65 :=
  ⟨rfl, c2_traffic_factor 'c' 0.55 0.75 rfl, by norm_num⟩

/-! ### Helper lemmas for the demand-matrix emission -/

theorem pyTrunc_of_nonneg (x : ℚ) (h : 0 ≤ x) : pyTrunc x = ⌊x⌋ := if_pos h

theorem timeFactorOf_nonneg (dUs : ℕ) : 0 ≤ timeFactorOf dUs := by
  unfold timeFactorOf
  positivity

theorem timeFactorOf_eq (dUs : ℕ) : timeFactorOf dUs = (dUs : ℚ) / 3600000000 := by
  unfold timeFactorOf usPerSecond od_matrix_duration
  rw [div_div]
  norm_num

theorem timeFactorOf_two_mul (dUs : ℕ) : timeFactorOf (2 * dUs) = 2 * timeFactorOf dUs := by
  rw [timeFactorOf_eq, timeFactorOf_eq]
  push_cast
  ring

theorem emittedCount_eq_floor (num : ℤ) (dUs : ℕ) (h : 0 ≤ num) :
    emittedCount num dUs = ⌊(num : ℚ) * timeFactorOf dUs⌋ := by
  unfold emittedCount
  exact pyTrunc_of_nonneg _ (mul_nonneg (by exact_mod_cast h) (timeFactorOf_nonneg dUs))

theorem trafficFactorOf_b : trafficFactorOf 'b' = 0.425 := by
  have h : trafficFactorOf 'b' = listMean [0.30, 0.55] := rfl
  rw [h]
  norm_num [listMean]

theorem emittedCount_100_hour : emittedCount 100 3600000000 = 100 := by
  rw [emittedCount_eq_floor 100 3600000000 (by norm_num), timeFactorOf_eq]
  rw [show ((100 : ℤ) : ℚ) * (((3600000000 : ℕ) : ℚ) / 3600000000) = ((100 : ℤ) : ℚ) by
    push_cast; ring]
  exact Int.floor_intCast 100

/-! ### Evaluating `rhe`, `fl` and the float-computed factors -/

theorem rhe_eq_of_lt (x : ℚ) (m : ℤ) (hfl : ⌊x⌋ = m) (hlt : x - m < 1 / 2) : rhe x = m := by
  unfold rhe
  rw [hfl, if_pos hlt]

theorem rhe_eq_of_gt (x : ℚ) (m : ℤ) (hfl : ⌊x⌋ = m) (hgt : 1 / 2 < x - m) :
    rhe x = m + 1 := by
  unfold rhe
  rw [hfl, if_neg (by linarith), if_pos hgt]

theorem rhe_eq_of_tie_odd (x : ℚ) (m : ℤ) (hfl : ⌊x⌋ = m) (htie : x - m = 1 / 2)
    (hodd : ¬ m % 2 = 0) : rhe x = m + 1 := by
  unfold rhe
  rw [hfl, if_neg (by linarith), if_neg (by linarith), if_neg hodd]

theorem int_log2_eq (x : ℚ) (e : ℤ) (hx : 0 < x) (h1 : (2:ℚ) ^ e ≤ x)
    (h2 : x < (2:ℚ) ^ (e + 1)) : Int.log 2 x = e := by
  have hle : e ≤ Int.log 2 x := by
    have h0 : Int.log 2 ((2:ℚ) ^ e) = e := Int.log_zpow (by norm_num) e
    rw [← h0]
    exact Int.log_mono_right (zpow_pos (by norm_num) e) h1
  have hge : Int.log 2 x ≤ e := by
    by_contra hlt
    push_neg at hlt
    have h3 : (2:ℚ) ^ (e + 1) ≤ (2:ℚ) ^ (Int.log 2 x) := by
      gcongr
      · norm_num
      · omega
    have h4 := Int.zpow_log_le_self (b := 2) (by norm_num) hx
    have h5 : (2:ℚ) ^ Int.log 2 x ≤ x := by exact_mod_cast h4
    linarith
  omega

theorem fl_eval (x : ℚ) (e m : ℤ) (hx : 0 < x)
    (h1 : (2:ℚ) ^ e ≤ x) (h2 : x < (2:ℚ) ^ (e + 1))
    (hm : rhe (x / 2 ^ (e - 52)) = m) :
    fl x = m * 2 ^ (e - 52) := by
  have hlog : Int.log 2 |x| = e := by
    rw [abs_of_pos hx]
    exact int_log2_eq x e hx h1 h2
  unfold fl
  rw [if_neg (ne_of_gt hx), hlog, hm]

theorem fl_zero : fl 0 = 0 := by
  unfold fl
  simp

theorem fl_03 : fl (0.30 : ℚ) = 5404319552844595 / 2 ^ 54 := by
  have h := fl_eval (0.30 : ℚ) (-2) 5404319552844595 (by norm_num) (by norm_num) (by norm_num)
    (rhe_eq_of_lt _ _ (by rw [Int.floor_eq_iff]; norm_num) (by norm_num))
  rw [h]
  norm_num

theorem fl_055 : fl (0.55 : ℚ) = 4953959590107546 / 2 ^ 53 := by
  have h := fl_eval (0.55 : ℚ) (-1) 4953959590107546 (by norm_num) (by norm_num) (by norm_num)
    (rhe_eq_of_gt _ 4953959590107545 (by rw [Int.floor_eq_iff]; norm_num) (by norm_num))
  rw [h]
  norm_num

theorem fl_rep54 : fl (5404319552844595 / 2 ^ 54 : ℚ) = 5404319552844595 / 2 ^ 54 := by
  have h := fl_eval (5404319552844595 / 2 ^ 54 : ℚ) (-2) 5404319552844595
    (by norm_num) (by norm_num) (by norm_num)
    (rhe_eq_of_lt _ _ (by rw [Int.floor_eq_iff]; norm_num) (by norm_num))
  rw [h]
  norm_num

theorem fl_sum_b : fl (15312238733059687 / 2 ^ 54 : ℚ) = 7656119366529844 / 2 ^ 53 := by
  have h := fl_eval (15312238733059687 / 2 ^ 54 : ℚ) (-1) 7656119366529844
    (by norm_num) (by norm_num) (by norm_num)
    (rhe_eq_of_tie_odd _ 7656119366529843 (by rw [Int.floor_eq_iff]; norm_num) (by norm_num)
      (by decide))
  rw [h]
  norm_num

theorem fl_rep_b : fl (7656119366529844 / 2 ^ 54 : ℚ) = 7656119366529844 / 2 ^ 54 := by
  have h := fl_eval (7656119366529844 / 2 ^ 54 : ℚ) (-2) 7656119366529844
    (by norm_num) (by norm_num) (by norm_num)
    (rhe_eq_of_lt _ _ (by rw [Int.floor_eq_iff]; norm_num) (by norm_num))
  rw [h]
  norm_num

theorem fl_rep_a : fl (5404319552844595 / 2 ^ 55 : ℚ) = 5404319552844595 / 2 ^ 55 := by
  have h := fl_eval (5404319552844595 / 2 ^ 55 : ℚ) (-3) 5404319552844595
    (by norm_num) (by norm_num) (by norm_num)
    (rhe_eq_of_lt _ _ (by rw [Int.floor_eq_iff]; norm_num) (by norm_num))
  rw [h]
  norm_num

/-- The float the loop computes for code `b`: `sum([0.3, 0.55])` rounds the
exact double sum — a representable-midpoint tie — up to even, leaving a value
strictly above `0.85`, and halving is exact, so the factor is strictly above
`0.425`. -/
theorem trafficFactorFloat_b :
    trafficFactorFloat 'b' = 7656119366529844 / 2 ^ 54 := by
  have h0 : trafficFactorFloat 'b' = fl (fl (fl (0 + fl 0.30) + fl 0.55) / 2) := rfl
  rw [h0, fl_03, zero_add, fl_rep54, fl_055,
    show (5404319552844595 / 2 ^ 54 + 4953959590107546 / 2 ^ 53 : ℚ)
      = 15312238733059687 / 2 ^ 54 by norm_num,
    fl_sum_b,
    show (7656119366529844 / 2 ^ 53 / 2 : ℚ) = 7656119366529844 / 2 ^ 54 by norm_num,
    fl_rep_b]

/-- The float the loop computes for code `a` (the double nearest `0.15`,
slightly below it). -/
theorem trafficFactorFloat_a :
    trafficFactorFloat 'a' = 5404319552844595 / 2 ^ 55 := by
  have h0 : trafficFactorFloat 'a' = fl (fl (fl (0 + fl 0) + fl 0.30) / 2) := rfl
  rw [h0, fl_zero, add_zero, fl_zero, fl_03, zero_add, fl_rep54,
    show (5404319552844595 / 2 ^ 54 / 2 : ℚ) = 5404319552844595 / 2 ^ 55 by norm_num,
    fl_rep_a]

/-- `'{0:0.2f}'` of the code-`b` factor double prints `0.43`. -/
theorem format2_float_b : format2 (7656119366529844 / 2 ^ 54 : ℚ) = 43 := by
  unfold format2
  exact rhe_eq_of_gt _ 42 (by rw [Int.floor_eq_iff]; norm_num) (by norm_num)

/-- `'{0:0.2f}'` of the code-`a` factor double prints `0.15`. -/
theorem format2_float_a : format2 (5404319552844595 / 2 ^ 55 : ℚ) = 15 := by
  unfold format2
  exact rhe_eq_of_gt _ 14 (by rw [Int.floor_eq_iff]; norm_num) (by norm_num)

/-! ### C3: the concrete demand-matrix emission

The source renders the factor line with `{traffic_factor:0.2f}` from the
float the loop computed.  For segment 1 of the spec's end-to-end example the
exact factor is `0.425`, but the double actually computed —
`sum([0.3, 0.55]) / 2` — is `7656119366529844 / 2^54`, strictly above
`0.425`, and the emitted header is `0.43`: a two-decimal value that is not
the factor. -/

/-- C3 counterexample: in the end-to-end example (duration 7200 s, sequence
"ab", source row `(1, 2, 100)`), segment 1's congestion factor — the mean of
the table bounds — is `0.425`, the double the loop computes for it is
`7656119366529844 / 2^54` (just above `0.425`), and the factor header of the
emitted file is `0.43`, not `0.425`. -/
theorem c3_counterexample :
    segmentsOf 7200000000 ['a', 'b'] =
      [mkSegment 7200000000 2 0 'a', mkSegment 7200000000 2 1 'b'] ∧
    trafficFactorOf 'b' = 425 / 1000 ∧
    trafficFactorFloat 'b' = 7656119366529844 / 2 ^ 54 ∧
    (segmentOdFile [(1, 2, 100)] 5 (mkSegment 7200000000 2 1 'b')).factorHundredths = 43 ∧
    ((43 : ℚ) / 100 ≠ 425 / 1000) := by
  refine ⟨rfl, ?_, trafficFactorFloat_b, ?_, by norm_num⟩
  · rw [trafficFactorOf_b]
    norm_num
  · have h : (segmentOdFile [(1, 2, 100)] 5 (mkSegment 7200000000 2 1 'b')).factorHundredths
        = format2 (trafficFactorFloat 'b') := rfl
    rw [h, trafficFactorFloat_b]
    exact format2_float_b

/-- C3 (amended): the emitted count is `floor(baseCount * duration / 3600 s)`;
in the end-to-end example both segments emit count 100 with time windows
00.00–01.00 and 01.00–02.00; each factor header is the two-decimal rendering
of the float-computed factor — `0.15` for segment 0, while segment 1's header
is `0.43`, a two-decimal value at distance exactly `0.005` from the factor
`0.425` (not `0.425` itself). -/
theorem c3_od_matrix_emission :
    (∀ (num dUs : ℕ), emittedCount (num : ℤ) dUs = ⌊(num : ℚ) * timeFactorOf dUs⌋) ∧
    segmentsOf 7200000000 ['a', 'b'] =
      [mkSegment 7200000000 2 0 'a', mkSegment 7200000000 2 1 'b'] ∧
    (segmentOdFile [(1, 2, 100)] 5 (mkSegment 7200000000 2 0 'a')).rows = [(1, 2, 100)] ∧
    (segmentOdFile [(1, 2, 100)] 5 (mkSegment 7200000000 2 1 'b')).rows = [(1, 2, 100)] ∧
    ((segmentOdFile [(1, 2, 100)] 5 (mkSegment 7200000000 2 0 'a')).fromHH,
     (segmentOdFile [(1, 2, 100)] 5 (mkSegment 7200000000 2 0 'a')).fromMM,
     (segmentOdFile [(1, 2, 100)] 5 (mkSegment 7200000000 2 0 'a')).toHH,
     (segmentOdFile [(1, 2, 100)] 5 (mkSegment 7200000000 2 0 'a')).toMM) = (0, 0, 1, 0) ∧
    ((segmentOdFile [(1, 2, 100)] 5 (mkSegment 7200000000 2 1 'b')).fromHH,
     (segmentOdFile [(1, 2, 100)] 5 (mkSegment 7200000000 2 1 'b')).fromMM,
     (segmentOdFile [(1, 2, 100)] 5 (mkSegment 7200000000 2 1 'b')).toHH,
     (segmentOdFile [(1, 2, 100)] 5 (mkSegment 7200000000 2 1 'b')).toMM) = (1, 0, 2, 0) ∧
    (segmentOdFile [(1, 2, 100)] 5 (mkSegment 7200000000 2 0 'a')).factorHundredths = 15 ∧
    (segmentOdFile [(1, 2, 100)] 5 (mkSegment 7200000000 2 1 'b')).factorHundredths = 43 ∧
    |((segmentOdFile [(1, 2, 100)] 5 (mkSegment 7200000000 2 1 'b')).factorHundredths : ℚ) / 100
      - 425 / 1000| = 1 / 200 := by
  refine ⟨?_, rfl, ?_, ?_, by decide, by decide, ?_, ?_, ?_⟩
  · intro num dUs
    rw [emittedCount_eq_floor _ _ (Int.natCast_nonneg num)]
    norm_num
  · have h : (segmentOdFile [(1, 2, 100)] 5 (mkSegment 7200000000 2 0 'a')).rows
        = [(1, 2, emittedCount 100 3600000000)] := rfl
    rw [h, emittedCount_100_hour]
  · have h : (segmentOdFile [(1, 2, 100)] 5 (mkSegment 7200000000 2 1 'b')).rows
        = [(1, 2, emittedCount 100 3600000000)] := rfl
    rw [h, emittedCount_100_hour]
  · have h : (segmentOdFile [(1, 2, 100)] 5 (mkSegment 7200000000 2 0 'a')).factorHundredths
        = format2 (trafficFactorFloat 'a') := rfl
    rw [h, trafficFactorFloat_a]
    exact format2_float_a
  · have h : (segmentOdFile [(1, 2, 100)] 5 (mkSegment 7200000000 2 1 'b')).factorHundredths
        = format2 (trafficFactorFloat 'b') := rfl
    rw [h, trafficFactorFloat_b]
    exact format2_float_b
  · have h : (segmentOdFile [(1, 2, 100)] 5 (mkSegment 7200000000 2 1 'b')).factorHundredths
        = format2 (trafficFactorFloat 'b') := rfl
    rw [h, trafficFactorFloat_b, format2_float_b]
    have h2 : ((43 : ℤ) : ℚ) / 100 - 425 / 1000 = 1 / 200 := by norm_num
    rw [h2]
    exact abs_of_nonneg (by norm_num)

/-! ### C4: rejection of an unknown congestion code -/

/-- C4 (amended): when the first unknown code of the sequence sits at index
`j`, the od-matrix loop rejects the scenario at that code — before the demand
file for segment `j` is written — but the demand files for the `j` earlier,
valid segments of the vehicle class being processed have already been
emitted.  Only for `j = 0` is no demand-matrix file written at all. -/
theorem c4_unknown_code_rejection (D : ℕ) (seq : List Char) (j : ℕ) (hj : j < seq.length)
    (hpre : ∀ k (hk : k < j), isValidCode (seq.get ⟨k, hk.trans hj⟩))
    (hbad : isValidCode (seq.get ⟨j, hj⟩) = false) :
    prepareOdFiles D seq =
      .error (segmentsFrom D seq.length 0 (seq.take j), seq.get ⟨j, hj⟩) ∧
    (segmentsFrom D seq.length 0 (seq.take j)).length = j := by
  refine ⟨prepareOdLoop_error D seq.length seq 0 j hj hpre hbad, ?_⟩
  rw [segmentsFrom_length]
  simp [List.length_take]
  omega

/-- C4 witness: the amended theorem at sequence "a4" (code `4` is not a key
of the congestion table, code `a` is). -/
theorem c4_unknown_code_rejection_witness :
    isValidCode '4' = false ∧
    (prepareOdFiles 7200000000 ['a', '4'] =
      .error (segmentsFrom 7200000000 2 0 ['a'], '4') ∧
     (segmentsFrom 7200000000 2 0 ['a']).length = 1) :=
  ⟨by decide,
    c4_unknown_code_rejection 7200000000 ['a', '4'] 1 (by decide)
      (fun k hk => by
        have hk0 : k = 0 := by omega
        subst hk0
        exact (by decide : isValidCode 'a' = true))
      (by decide)⟩

/-- C4 counterexample: for the scenario with sequence "a4" the unknown code
`4` is rejected only after the demand-matrix file for the valid first
segment has been written: one demand file for the scenario exists at the
moment of rejection, contradicting "no demand-matrix file is written". -/
theorem c4_counterexample :
    prepareOdFiles 7200000000 ['a', '4'] =
      .error (segmentsFrom 7200000000 2 0 ['a'], '4') ∧
    (segmentsFrom 7200000000 2 0 ['a']).length = 1 ∧ (1 : ℕ) ≠ 0 := by
  refine ⟨?_, by decide, by decide⟩
  exact prepareOdLoop_error 7200000000 2 ['a', '4'] 0 1 (by decide)
    (fun k hk => by
      have hk0 : k = 0 := by omega
      subst hk0
      exact (by decide : isValidCode 'a' = true))
    (by decide)

/-! ### C5: the coordinate transform -/

/-- C5: `convert_lon_lat_2_xy_omnet` is the deterministic function of the raw
projected point, the bounding box and the offset given by
`x = xs - xMin + offsetX` and `y = -(ys - yMax + offsetY)`: the vertical
component is the negation of the horizontal shift formula with the box
minimum replaced by the box maximum. -/
theorem c5_coordinate_transform (net : SumoNet) (lon lat : ℚ) :
    convert_lon_lat_2_xy_omnet net lon lat =
      (hshift (net.convLonLat lon lat).1 net.xMin net.offsetX,
       -(hshift (net.convLonLat lon lat).2 net.yMax net.offsetY)) ∧
    (convert_lon_lat_2_xy_omnet net lon lat).1
      = (net.convLonLat lon lat).1 - net.xMin + net.offsetX ∧
    (convert_lon_lat_2_xy_omnet net lon lat).2
      = -((net.convLonLat lon lat).2 - net.yMax + net.offsetY) :=
  ⟨rfl, rfl, rfl⟩

/-! ### C6: exit status of the external conversion tools -/

/-- C6: the call sites of the demand-to-trip and trip-to-route conversions
treat every exit status alike — a non-zero status produces no error and the
pipeline continues with the trip file already collected, instead of the
claimed `ExternalToolError` abort. -/
theorem c6_exit_status_ignored :
    od2tripsCall 1 [] "sv_trip.odtrips.xml" = (["sv_trip.odtrips.xml"], Except.ok ()) ∧
    duarouterCall 1 = Except.ok () ∧
    ∀ status : ℤ,
      od2tripsCall status [] "sv_trip.odtrips.xml" = od2tripsCall 0 [] "sv_trip.odtrips.xml" ∧
      duarouterCall status = duarouterCall 0 :=
  ⟨rfl, rfl, fun _ => ⟨rfl, rfl⟩⟩

/-! ### C7: linearity of demand scaling in the segment duration -/

/-- C7: the pre-truncation scaling is exactly linear — doubling the segment
duration doubles the time factor — and the emitted integer count for the
doubled duration is twice the original count up to the truncation effect
(equal to it or exceeding it by exactly one). -/
theorem c7_linear_scaling (num : ℤ) (dUs : ℕ) (h : 0 ≤ num) :
    timeFactorOf (2 * dUs) = 2 * timeFactorOf dUs ∧
    (emittedCount num (2 * dUs) = 2 * emittedCount num dUs ∨
     emittedCount num (2 * dUs) = 2 * emittedCount num dUs + 1) := by
  refine ⟨timeFactorOf_two_mul dUs, ?_⟩
  rw [emittedCount_eq_floor num dUs h, emittedCount_eq_floor num (2 * dUs) h,
    timeFactorOf_two_mul]
  set x : ℚ := (num : ℚ) * timeFactorOf dUs with hxdef
  have harg : (num : ℚ) * (2 * timeFactorOf dUs) = 2 * x := by rw [hxdef]; ring
  rw [harg]
  have h1 : 2 * ⌊x⌋ ≤ ⌊2 * x⌋ := by
    apply Int.le_floor.mpr
    push_cast
    have hfl := Int.floor_le x
    linarith
  have h2 : ⌊2 * x⌋ < 2 * ⌊x⌋ + 2 := by
    apply Int.floor_lt.mpr
    push_cast
    have hfl := Int.lt_floor_add_one x
    linarith
  omega

/-- C7 witness: base count 1 with a half-hour segment doubled to a full hour
(the truncation case: counts 0 and 1). -/
theorem c7_linear_scaling_witness :
    (0 : ℤ) ≤ 1 ∧
    (timeFactorOf (2 * 1800000000) = 2 * timeFactorOf 1800000000 ∧
     (emittedCount 1 (2 * 1800000000) = 2 * emittedCount 1 1800000000 ∨
      emittedCount 1 (2 * 1800000000) = 2 * emittedCount 1 1800000000 + 1)) :=
  ⟨by norm_num, c7_linear_scaling 1 1800000000 (by norm_num)⟩

/-! ### C8: scratch cleanup removes exactly the scenario-scoped paths -/

theorem ne_append_of_longer (id s t : String) (h : t.length < s.length) : t ≠ id ++ s := by
  intro he
  have hl := congrArg String.length he
  rw [String.length_append] at hl
  omega

/-- C8: `Simulation.clean` keeps exactly the paths that are neither one of
the six scenario-scoped targets nor inside the removed route directory;
every one of the six targets is removed, nothing outside them is, and in
particular the shared reference template `vtypes.add.xml` and the archived
configuration copy under the results tree are untouched, whatever the
scenario id and results location. -/
theorem c8_clean_exactly_six (id : String) (resultsTail : List String)
    (fs : List (List String)) :
    (∀ p, p ∈ clean id fs ↔ p ∈ fs ∧ ¬ removedByClean id p) ∧
    (∀ q ∈ objects2delete id, removedByClean id q) ∧
    (∀ p, removedByClean id p → p ∈ objects2delete id ∨ routesDir id <+: p) ∧
    ¬ removedByClean id vtypesRefPath ∧
    ¬ removedByClean id (archivedConfigPath resultsTail id) ∧
    objects2delete id =
      [vtypesNewPath id, sumoConfigPath id, omnetppLongPath id, servicesPath id,
       routesDir id, additionalFilePath id] := by
  refine ⟨?_, ?_, ?_, ?_, ?_, rfl⟩
  · intro p
    simp [clean, List.mem_filter, decide_eq_true_eq]
  · intro q hq
    exact Or.inl hq
  · intro p hp
    exact hp
  · rintro (hmem | hpre)
    · simp only [objects2delete, List.mem_cons, List.not_mem_nil, or_false] at hmem
      rcases hmem with h | h | h | h | h | h
      · rw [vtypesRefPath, vtypesNewPath] at h
        injection h with h1 h2
        injection h2 with h3 h4
        injection h4 with h5 h6
        exact ne_append_of_longer id "_vtypes.add.xml" "vtypes.add.xml" (by decide) h5
      · rw [vtypesRefPath, sumoConfigPath] at h
        injection h with h1 h2
        injection h2 with h3 h4
        exact absurd h3 (by decide)
      · rw [vtypesRefPath, omnetppLongPath] at h
        injection h with h1 h2
        injection h2
      · rw [vtypesRefPath, servicesPath] at h
        injection h with h1 h2
        injection h2
      · rw [vtypesRefPath, routesDir] at h
        injection h with h1 h2
        injection h2 with h3 h4
        exact absurd h3 (by decide)
      · rw [vtypesRefPath, additionalFilePath] at h
        injection h with h1 h2
        injection h2 with h3 h4
        injection h4 with h5 h6
        exact ne_append_of_longer id "_additional.add.xml" "vtypes.add.xml" (by decide) h5
    · obtain ⟨t, ht⟩ := hpre
      rw [routesDir, vtypesRefPath] at ht
      simp only [List.cons_append] at ht
      injection ht with h1 h2
      injection h2 with h3 h4
      exact absurd h3 (by decide)
  · rintro (hmem | hpre)
    · simp only [objects2delete, List.mem_cons, List.not_mem_nil, or_false] at hmem
      rcases hmem with h | h | h | h | h | h
      · rw [archivedConfigPath, vtypesNewPath] at h
        injection h with h1 h2
        exact absurd h1 (by decide)
      · rw [archivedConfigPath, sumoConfigPath] at h
        injection h with h1 h2
        exact absurd h1 (by decide)
      · rw [archivedConfigPath, omnetppLongPath] at h
        injection h with h1 h2
        simp at h2
      · rw [archivedConfigPath, servicesPath] at h
        injection h with h1 h2
        simp at h2
      · rw [archivedConfigPath, routesDir] at h
        injection h with h1 h2
        exact absurd h1 (by decide)
      · rw [archivedConfigPath, additionalFilePath] at h
        injection h with h1 h2
        exact absurd h1 (by decide)
    · obtain ⟨t, ht⟩ := hpre
      rw [routesDir, archivedConfigPath] at ht
      simp only [List.cons_append] at ht
      injection ht with h1 h2
      exact absurd h1 (by decide)

/-! ### C9: vehicle-type customization -/

theorem exists_append_of_isPrefixOf {α : Type} [BEq α] [LawfulBEq α] :
    ∀ (p l : List α), p.isPrefixOf l → ∃ t, p ++ t = l := by
  intro p
  induction p with
  | nil => intro l _; exact ⟨l, rfl⟩
  | cons a as ih =>
    intro l hp
    cases l with
    | nil => simp [List.isPrefixOf] at hp
    | cons b bs =>
      simp only [List.isPrefixOf, Bool.and_eq_true, beq_iff_eq] at hp
      obtain ⟨t, ht⟩ := ih bs hp.2
      exact ⟨t, by simp [List.cons_append, ht, hp.1]⟩

theorem isInfix_of_isPrefixOf (p l : List Char) (h : p.isPrefixOf l) : p <:+: l := by
  obtain ⟨t, ht⟩ := exists_append_of_isPrefixOf p l h
  exact ⟨[], t, by simpa using ht⟩

theorem isInfix_cons (p rest : List Char) (c : Char) (h : p <:+: rest) : p <:+: c :: rest := by
  obtain ⟨s, t, ht⟩ := h
  exact ⟨c :: s, t, by simp [List.cons_append, ht]⟩

theorem replaceAll_no_occurrence (pat rep : List Char) :
    ∀ s : List Char, ¬ pat <:+: s → replaceAll pat rep s = s := by
  intro s
  induction s with
  | nil => intro _; simp [replaceAll]
  | cons c rest ih =>
    intro h
    rw [replaceAll]
    have hnot : ¬ (pat ≠ [] ∧ pat.isPrefixOf (c :: rest)) := by
      rintro ⟨-, hp⟩
      exact h (isInfix_of_isPrefixOf pat (c :: rest) hp)
    rw [dif_neg hnot, ih (fun hi => h (isInfix_cons pat rest c hi))]

/-- C9: `customize_vtype_file` never modifies the template — whatever the
template's content, marker or no marker, the path it was read from (indeed
every path other than the distinct output path) is left untouched — and when
the marker `tau="1.0"` does not occur in the template's content the written
output is byte-for-byte the template's content. -/
theorem c9_vtype_customization (fs : String → Option (List Char)) (ref new : String)
    (tauStr content : List Char) (h1 : ref ≠ new) (h2 : fs ref = some content) :
    customize_vtype_file fs ref new tauStr ref = fs ref ∧
    (∀ p, p ≠ new → customize_vtype_file fs ref new tauStr p = fs p) ∧
    (¬ tauMarker <:+: content →
      customize_vtype_file fs ref new tauStr new = some content) := by
  refine ⟨?_, ?_, ?_⟩
  · unfold customize_vtype_file
    rw [if_neg h1]
  · intro p hp
    unfold customize_vtype_file
    rw [if_neg hp]
  · intro hno
    unfold customize_vtype_file
    rw [if_pos rfl, h2, Option.map_some']
    rw [customize_vtype_content, replaceAll_no_occurrence _ _ _ hno]

/-- C9 witness: the theorem applied to a realistic template that contains the
`tau` marker (the template and every other path are untouched) and to a
marker-free template (additionally, the written output is byte-for-byte the
template's content). -/
theorem c9_vtype_customization_witness :
    ("vtypes.add.xml" : String) ≠ "S01_vtypes.add.xml" ∧
    templateFsMarker "vtypes.add.xml" = some ("<vType tau=\"1.0\"/>".toList) ∧
    templateFsPlain "vtypes.add.xml" = some ("<vType/>".toList) ∧
    (customize_vtype_file templateFsMarker "vtypes.add.xml" "S01_vtypes.add.xml"
        "2.5".toList "vtypes.add.xml" = templateFsMarker "vtypes.add.xml" ∧
     (∀ p, p ≠ "S01_vtypes.add.xml" →
       customize_vtype_file templateFsMarker "vtypes.add.xml" "S01_vtypes.add.xml"
         "2.5".toList p = templateFsMarker p) ∧
     (¬ tauMarker <:+: "<vType tau=\"1.0\"/>".toList →
       customize_vtype_file templateFsMarker "vtypes.add.xml" "S01_vtypes.add.xml"
         "2.5".toList "S01_vtypes.add.xml" = some ("<vType tau=\"1.0\"/>".toList))) ∧
    (customize_vtype_file templateFsPlain "vtypes.add.xml" "S01_vtypes.add.xml"
        "2.5".toList "vtypes.add.xml" = templateFsPlain "vtypes.add.xml" ∧
     (∀ p, p ≠ "S01_vtypes.add.xml" →
       customize_vtype_file templateFsPlain "vtypes.add.xml" "S01_vtypes.add.xml"
         "2.5".toList p = templateFsPlain p) ∧
     (¬ tauMarker <:+: "<vType/>".toList →
       customize_vtype_file templateFsPlain "vtypes.add.xml" "S01_vtypes.add.xml"
         "2.5".toList "S01_vtypes.add.xml" = some ("<vType/>".toList))) ∧
    ¬ tauMarker <:+: "<vType/>".toList ∧
    customize_vtype_file templateFsPlain "vtypes.add.xml" "S01_vtypes.add.xml"
        "2.5".toList "S01_vtypes.add.xml" = some ("<vType/>".toList) :=
  ⟨by decide, rfl, rfl,
    c9_vtype_customization templateFsMarker "vtypes.add.xml" "S01_vtypes.add.xml"
      "2.5".toList ("<vType tau=\"1.0\"/>".toList) (by decide) rfl,
    c9_vtype_customization templateFsPlain "vtypes.add.xml" "S01_vtypes.add.xml"
      "2.5".toList ("<vType/>".toList) (by decide) rfl,
    by decide,
    (c9_vtype_customization templateFsPlain "vtypes.add.xml" "S01_vtypes.add.xml"
      "2.5".toList ("<vType/>".toList) (by decide) rfl).2.2 (by decide)⟩

/-! ### C10: the to-time of the emitted window wraps modulo 24 hours -/

theorem hourOfDayUs_mod_day (t : ℕ) : hourOfDayUs (t % dayUs) = hourOfDayUs t := by
  unfold hourOfDayUs
  rw [show dayUs = usPerHour * 24 from rfl, Nat.mod_mul_right_div_self]
  exact Nat.mod_mod_of_dvd _ dvd_rfl

theorem minuteOfHourUs_mod_day (t : ℕ) : minuteOfHourUs (t % dayUs) = minuteOfHourUs t := by
  unfold minuteOfHourUs
  rw [show dayUs = usPerMinute * 1440 from rfl, Nat.mod_mul_right_div_self]
  exact Nat.mod_mod_of_dvd _ (by norm_num)

/-- C10: the to-time of the emitted time-window line is the segment's end
instant reduced modulo 24 hours; a segment starting at 23:00 with duration
2 h (end instant on the next calendar day) gets the window 23.00–01.00,
whose to-time is numerically smaller than its from-time. -/
theorem c10_to_time_wraps :
    (∀ (rows : List (ℤ × ℤ × ℤ)) (f : ℚ) (v startUs dUs : ℕ),
      (create_od_matrix_file rows f v startUs dUs).toHH
          = hourOfDayUs ((startUs + dUs) % dayUs) ∧
      (create_od_matrix_file rows f v startUs dUs).toMM
          = minuteOfHourUs ((startUs + dUs) % dayUs)) ∧
    (create_od_matrix_file [] 0 5 82800000000 7200000000).fromHH = 23 ∧
    (create_od_matrix_file [] 0 5 82800000000 7200000000).fromMM = 0 ∧
    (create_od_matrix_file [] 0 5 82800000000 7200000000).toHH = 1 ∧
    (create_od_matrix_file [] 0 5 82800000000 7200000000).toMM = 0 ∧
    (create_od_matrix_file [] 0 5 82800000000 7200000000).toHH * 100
        + (create_od_matrix_file [] 0 5 82800000000 7200000000).toMM
      < (create_od_matrix_file [] 0 5 82800000000 7200000000).fromHH * 100
        + (create_od_matrix_file [] 0 5 82800000000 7200000000).fromMM := by
  refine ⟨?_, by decide, by decide, by decide, by decide, by decide⟩
  intro rows f v startUs dUs
  constructor
  · show hourOfDayUs (startUs + dUs) = hourOfDayUs ((startUs + dUs) % dayUs)
    exact (hourOfDayUs_mod_day (startUs + dUs)).symm
  · show minuteOfHourUs (startUs + dUs) = minuteOfHourUs ((startUs + dUs) % dayUs)
    exact (minuteOfHourUs_mod_day (startUs + dUs)).symm

end Dave
